import Mathlib

/-!
Shallow embedding of the personality-corpus-api query layer (src/main.py).

The relational store is modelled as a list of rows of the joined view
lemma_with_example.  Each endpoint of main.py becomes a Lean function over
that list; the dynamic SQL construction (WHERE fragments, positional
parameters, sort allow-list) is embedded as a separate textual layer so that
the claims about query construction can be stated about the very strings and
parameter lists the code builds.
-/

/-- Row of the joined view lemma_with_example, as the endpoints read it.
Nullable columns are Option-valued. -/
structure Row where
  lemma_id : Int
  lang_pfx : String
  lang_iso : String
  lang_name : String
  word_original : String
  word_en : String
  kernel_word : Option String
  word_type : String
  frequency : Option Int
  alternative_comment : Option String
  definition : Option String
deriving DecidableEq

/-- JSON-shaped values, enough for the response envelopes main.py builds. -/
inductive Json where
  | num (n : Int)
  | str (s : String)
  | null
  | arr (xs : List Json)
  | obj (kvs : List (String × Json))

/-- Keys of a JSON object (empty for non-objects). -/
def Json.keys : Json → List String
  | .obj kvs => kvs.map Prod.fst
  | _ => []

/-- Field lookup in a JSON object. -/
def Json.lookup (j : Json) (k : String) : Option Json :=
  match j with
  | .obj kvs => List.lookup k kvs
  | _ => none

/-- Optional string rendered as JSON (null when absent). -/
def Json.ostr : Option String → Json
  | none => Json.null
  | some s => Json.str s

/-- Optional integer rendered as JSON (null when absent). -/
def Json.onum : Option Int → Json
  | none => Json.null
  | some n => Json.num n

/-- Truthiness of a Python optional string: None and the empty string are
falsy; main.py guards every optional filter with this test. -/
def strPresent : Option String → Bool
  | none => false
  | some s => decide (s ≠ "")

/-- Python error raised through HTTPException: status code plus detail. -/
structure HErr where
  status : Nat
  detail : String
deriving DecidableEq

/-- Positional SQL parameter, as psycopg2 receives it. -/
inductive SqlParam where
  | str (s : String)
  | int (i : Int)
deriving DecidableEq

/-- Wildcard wrapping of a filter value, Python f-string percent-value-percent. -/
def wild (s : String) : String := "%" ++ s ++ "%"

/-! ## Textual layer: predicate builder (main.py lines 130-167) -/

/-- WHERE-clause fragments and bound parameters of GET /lemmas, built
sequentially exactly as main.py appends them (lines 131-163): language
prefix, word type, the three-field search disjunction, then the four
single-field ILIKE filters. -/
def buildLemmaPredicates (lp se wo we kw df wt : Option String) :
    List String × List SqlParam :=
  let wc : List String := []
  let ps : List SqlParam := []
  let (wc, ps) :=
    if strPresent lp then (wc ++ ["lang_prefix = %s"], ps ++ [.str (lp.getD "")])
    else (wc, ps)
  let (wc, ps) :=
    if strPresent wt then (wc ++ ["word_type = %s"], ps ++ [.str (wt.getD "")])
    else (wc, ps)
  let (wc, ps) :=
    if strPresent se then
      (wc ++ ["(word_original ILIKE %s OR word_en ILIKE %s OR definition ILIKE %s)"],
       ps ++ [.str (wild (se.getD "")), .str (wild (se.getD "")), .str (wild (se.getD ""))])
    else (wc, ps)
  let (wc, ps) :=
    if strPresent wo then (wc ++ ["word_original ILIKE %s"], ps ++ [.str (wild (wo.getD ""))])
    else (wc, ps)
  let (wc, ps) :=
    if strPresent we then (wc ++ ["word_en ILIKE %s"], ps ++ [.str (wild (we.getD ""))])
    else (wc, ps)
  let (wc, ps) :=
    if strPresent kw then (wc ++ ["kernel_word ILIKE %s"], ps ++ [.str (wild (kw.getD ""))])
    else (wc, ps)
  let (wc, ps) :=
    if strPresent df then (wc ++ ["definition ILIKE %s"], ps ++ [.str (wild (df.getD ""))])
    else (wc, ps)
  (wc, ps)

/-- Assembled WHERE clause: empty string when there are no fragments,
otherwise "WHERE " plus the AND-joined fragments (main.py lines 165-167). -/
def whereSql (wc : List String) : String :=
  match wc with
  | [] => ""
  | _ => "WHERE " ++ String.intercalate " AND " wc

/-! Per-input contributions, used to state the order in which the builder
appends fragments and values. -/

/-- Fragment and parameters contributed by the lang_prefix filter. -/
def langClause (x : Option String) : List String × List SqlParam :=
  if strPresent x then (["lang_prefix = %s"], [.str (x.getD "")]) else ([], [])

/-- Fragment and parameters contributed by the word_type filter. -/
def typeClause (x : Option String) : List String × List SqlParam :=
  if strPresent x then (["word_type = %s"], [.str (x.getD "")]) else ([], [])

/-- Fragment and parameters contributed by the general search input: one
disjunction over three columns, the same wildcard-wrapped value three times. -/
def searchClause (x : Option String) : List String × List SqlParam :=
  if strPresent x then
    (["(word_original ILIKE %s OR word_en ILIKE %s OR definition ILIKE %s)"],
     [.str (wild (x.getD "")), .str (wild (x.getD "")), .str (wild (x.getD ""))])
  else ([], [])

/-- Fragment and parameters contributed by the word_original filter. -/
def origClause (x : Option String) : List String × List SqlParam :=
  if strPresent x then (["word_original ILIKE %s"], [.str (wild (x.getD ""))]) else ([], [])

/-- Fragment and parameters contributed by the word_en filter. -/
def enClause (x : Option String) : List String × List SqlParam :=
  if strPresent x then (["word_en ILIKE %s"], [.str (wild (x.getD ""))]) else ([], [])

/-- Fragment and parameters contributed by the kernel_word filter. -/
def kernelClause (x : Option String) : List String × List SqlParam :=
  if strPresent x then (["kernel_word ILIKE %s"], [.str (wild (x.getD ""))]) else ([], [])

/-- Fragment and parameters contributed by the definition filter. -/
def defClause (x : Option String) : List String × List SqlParam :=
  if strPresent x then (["definition ILIKE %s"], [.str (wild (x.getD ""))]) else ([], [])

/-! ## Textual layer: sort resolver (main.py lines 169-180) -/

/-- Allow-list of sortable columns, the Python dict sort_map. -/
def sort_map : List (String × String) :=
  [("lemma_id", "lemma_id"), ("word_original", "word_original"),
   ("word_en", "word_en"), ("frequency", "frequency")]

/-- Column actually used in ORDER BY: the allow-list image of sort_by, with
lemma_id as dict-get default. -/
def sortColumn (sort_by : String) : String :=
  (sort_map.lookup sort_by).getD "lemma_id"

/-- Direction actually used in ORDER BY: DESC exactly when sort_dir
lower-cases to desc, ASC otherwise. -/
def sortDirection (sort_dir : String) : String :=
  if sort_dir.toLower = "desc" then "DESC" else "ASC"

/-! ## Textual layer: two-phase query plans -/

/-- Count query, list query and their positional parameters, as one endpoint
builds them before execution. -/
structure QueryPlan where
  count_sql : String
  count_params : List SqlParam
  list_sql : String
  list_params : List SqlParam

/-- Shared SELECT column list of the list queries. -/
def selectCols : String :=
  "SELECT lemma_id, lang_prefix, lang_iso, lang_name, word_original, word_en, " ++
  "kernel_word, word_type, frequency, alternative_comment, definition FROM lemma_with_example "

/-- Query plan of GET /lemmas (main.py lines 182-209): count and list query
share the WHERE clause and parameter list; the list query appends ORDER BY
from the sort resolver and LIMIT/OFFSET parameters. -/
def searchLemmasPlan (lp se wo we kw df wt : Option String)
    (sort_by sort_dir : String) (page page_size : Nat) : QueryPlan :=
  let offset : Nat := (page - 1) * page_size
  let built := buildLemmaPredicates lp se wo we kw df wt
  let w := whereSql built.1
  ⟨"SELECT COUNT(*) AS total FROM lemma_with_example " ++ w ++ ";",
   built.2,
   selectCols ++ w ++ " ORDER BY " ++ sortColumn sort_by ++ " " ++
     sortDirection sort_dir ++ " LIMIT %s OFFSET %s;",
   built.2 ++ [.int page_size, .int offset]⟩

/-- WHERE fragments and parameters of GET /lemmas/by_kernel (main.py lines
449-456): the exact kernel_word match always present, plus the optional
lang_prefix equality. -/
def byKernelPredicates (kernel_word : String) (lp : Option String) :
    List String × List SqlParam :=
  let wc : List String := ["kernel_word = %s"]
  let ps : List SqlParam := [.str kernel_word]
  let (wc, ps) :=
    if strPresent lp then (wc ++ ["lang_prefix = %s"], ps ++ [.str (lp.getD "")])
    else (wc, ps)
  (wc, ps)

/-- Query plan of GET /lemmas/by_kernel (main.py lines 458-483). -/
def byKernelPlan (kernel_word : String) (lp : Option String)
    (page page_size : Nat) : QueryPlan :=
  let offset : Nat := (page - 1) * page_size
  let built := byKernelPredicates kernel_word lp
  let w := "WHERE " ++ String.intercalate " AND " built.1
  ⟨"SELECT COUNT(*) AS total FROM lemma_with_example " ++ w ++ ";",
   built.2,
   selectCols ++ w ++ " ORDER BY lemma_id LIMIT %s OFFSET %s;",
   built.2 ++ [.int page_size, .int offset]⟩

/-! ## Semantic layer: SQL execution over a list of rows -/

/-- List containment check: true when the first list occurs contiguously
inside the second. -/
def hasSub : List Char → List Char → Bool
  | pre, [] => pre.isEmpty
  | pre, c :: t => pre.isPrefixOf (c :: t) || hasSub pre t

/-- Semantics of column ILIKE percent-value-percent: case-insensitive
substring containment. -/
def ilike (v needle : String) : Bool :=
  hasSub needle.toLower.toList v.toLower.toList

/-- ILIKE on a nullable column: SQL NULL never matches. -/
def ilikeOpt : Option String → String → Bool
  | none, _ => false
  | some v, needle => ilike v needle

/-- Optional filter application, mirroring the Python truthiness guard: an
absent or empty input constrains nothing. -/
def optFilter (x : Option String) (test : String → Bool) : Bool :=
  if strPresent x then test (x.getD "") else true

/-- Row predicate of GET /lemmas: the semantic counterpart of the WHERE
clause built by buildLemmaPredicates, same inputs, conjunction of the
present filters. -/
def rowMatches (lp se wo we kw df wt : Option String) (r : Row) : Bool :=
  optFilter lp (fun v => decide (r.lang_pfx = v)) &&
  optFilter wt (fun v => decide (r.word_type = v)) &&
  optFilter se (fun v => ilike r.word_original v || ilike r.word_en v ||
    ilikeOpt r.definition v) &&
  optFilter wo (fun v => ilike r.word_original v) &&
  optFilter we (fun v => ilike r.word_en v) &&
  optFilter kw (fun v => ilikeOpt r.kernel_word v) &&
  optFilter df (fun v => ilikeOpt r.definition v)

/-- Order on nullable integers used for ORDER BY, SQL NULLS LAST. -/
def optIntLe : Option Int → Option Int → Bool
  | none, none => true
  | none, some _ => false
  | some _, none => true
  | some a, some b => decide (a ≤ b)

/-- Row comparison for one sortable column of GET /lemmas. -/
def colLe (col : String) (a b : Row) : Bool :=
  if col = "word_original" then decide (a.word_original ≤ b.word_original)
  else if col = "word_en" then decide (a.word_en ≤ b.word_en)
  else if col = "frequency" then optIntLe a.frequency b.frequency
  else decide (a.lemma_id ≤ b.lemma_id)

/-- ORDER BY sort_column sort_direction over fetched rows: ascending is a
stable sort by the column, descending sorts by the flipped comparison. -/
def orderRows (col dir : String) (rows : List Row) : List Row :=
  if dir = "DESC" then rows.mergeSort (fun a b => colLe col b a)
  else rows.mergeSort (colLe col)

/-- Nested lemma object of row_to_lemma (main.py lines 27-45). -/
def row_to_lemma (r : Row) : Json :=
  Json.obj
    [("lemma_id", .num r.lemma_id),
     ("language", .obj [("prefix", .str r.lang_pfx), ("iso", .str r.lang_iso),
                        ("name", .str r.lang_name)]),
     ("word_original", .str r.word_original),
     ("word_en", .str r.word_en),
     ("kernel_word", .ostr r.kernel_word),
     ("word_type", .str r.word_type),
     ("frequency", .onum r.frequency),
     ("alternative_comment", .ostr r.alternative_comment),
     ("definition", .ostr r.definition)]

/-- GET /lemmas (main.py search_lemmas): filter, count, sort, slice, and the
returned envelope with its four keys. -/
def search_lemmas (db : List Row) (lp se wo we kw df wt : Option String)
    (sort_by sort_dir : String) (page page_size : Nat) : Json :=
  let offset : Nat := (page - 1) * page_size
  let matching := db.filter (rowMatches lp se wo we kw df wt)
  let total : Nat := matching.length
  let rows := ((orderRows (sortColumn sort_by) (sortDirection sort_dir) matching).drop
    offset).take page_size
  Json.obj
    [("page", .num page), ("page_size", .num page_size), ("total", .num total),
     ("results", .arr (rows.map row_to_lemma))]

/-- GET /lemmas/by_kernel (main.py lemmas_by_kernel): exact kernel_word
match, optional lang_prefix, ordered by lemma_id, paged envelope. -/
def lemmas_by_kernel (db : List Row) (kernel_word : String) (lp : Option String)
    (page page_size : Nat) : Json :=
  let offset : Nat := (page - 1) * page_size
  let matching := db.filter (fun r =>
    decide (r.kernel_word = some kernel_word) &&
    optFilter lp (fun v => decide (r.lang_pfx = v)))
  let total : Nat := matching.length
  let rows := ((matching.mergeSort (fun a b => decide (a.lemma_id ≤ b.lemma_id))).drop
    offset).take page_size
  Json.obj
    [("kernel_word", .str kernel_word), ("lang_prefix", .ostr lp),
     ("page", .num page), ("page_size", .num page_size), ("total", .num total),
     ("results", .arr (rows.map row_to_lemma))]

/-- GET /definitions/search (main.py search_definitions): required substring
filter on definition, optional lang_prefix, ordered by lemma_id, paged. -/
def search_definitions (db : List Row) (q : String) (lp : Option String)
    (page page_size : Nat) : Json :=
  let offset : Nat := (page - 1) * page_size
  let matching := db.filter (fun r =>
    ilikeOpt r.definition q &&
    optFilter lp (fun v => decide (r.lang_pfx = v)))
  let total : Nat := matching.length
  let rows := ((matching.mergeSort (fun a b => decide (a.lemma_id ≤ b.lemma_id))).drop
    offset).take page_size
  Json.obj
    [("query", .str q), ("lang_prefix", .ostr lp),
     ("page", .num page), ("page_size", .num page_size), ("total", .num total),
     ("results", .arr (rows.map row_to_lemma))]

/-- GET /languages/lang/lemmas (main.py lemmas_by_language): exact language
match, optional word_type, ordered by lemma_id, paged. -/
def lemmas_by_language (db : List Row) (lang : String) (wt : Option String)
    (page page_size : Nat) : Json :=
  let offset : Nat := (page - 1) * page_size
  let matching := db.filter (fun r =>
    decide (r.lang_pfx = lang) &&
    optFilter wt (fun v => decide (r.word_type = v)))
  let total : Nat := matching.length
  let rows := ((matching.mergeSort (fun a b => decide (a.lemma_id ≤ b.lemma_id))).drop
    offset).take page_size
  Json.obj
    [("lang_prefix", .str lang), ("word_type", .ostr wt),
     ("page", .num page), ("page_size", .num page_size), ("total", .num total),
     ("results", .arr (rows.map row_to_lemma))]

/-! ## Grouping aggregator (main.py lines 333-364 and 701-732) -/

/-- Language descriptor carried by a bucket. -/
structure LangInfo where
  pfx : String
  iso : String
  name : String
deriving DecidableEq

/-- Bucket of the concept view: one language and its accumulated lemma
summaries. -/
structure Bucket where
  language : LangInfo
  lemmas : List Json

/-- Lemma summary appended to a bucket. -/
def lemmaSummary (r : Row) : Json :=
  Json.obj
    [("lemma_id", .num r.lemma_id), ("word_original", .str r.word_original),
     ("word_en", .str r.word_en), ("word_type", .str r.word_type),
     ("frequency", .onum r.frequency),
     ("alternative_comment", .ostr r.alternative_comment),
     ("definition", .ostr r.definition)]

/-- Processing of one row by the grouping loop: append to the existing
bucket of its language, or open a new bucket at the end (dict insertion
order). -/
def insertRow (bs : List Bucket) (r : Row) : List Bucket :=
  if bs.any (fun b => decide (b.language.pfx = r.lang_pfx)) then
    bs.map (fun b =>
      if b.language.pfx = r.lang_pfx then
        Bucket.mk b.language (b.lemmas ++ [lemmaSummary r])
      else b)
  else bs ++ [Bucket.mk (LangInfo.mk r.lang_pfx r.lang_iso r.lang_name) [lemmaSummary r]]

/-- Grouping loop over the ordered result set. -/
def groupRows (rows : List Row) : List Bucket :=
  rows.foldl insertRow []

/-- Bucket rendered as the JSON object of the response. -/
def bucketJson (b : Bucket) : Json :=
  Json.obj
    [("language", .obj [("prefix", .str b.language.pfx), ("iso", .str b.language.iso),
                        ("name", .str b.language.name)]),
     ("lemmas", .arr b.lemmas)]

/-- Comparison implementing ORDER BY lang_name, word_original. -/
def conceptLe (a b : Row) : Bool :=
  decide (a.lang_name < b.lang_name ∨
    (a.lang_name = b.lang_name ∧ a.word_original ≤ b.word_original))

/-- Rows of the concept query in response order. -/
def conceptSort (rows : List Row) : List Row :=
  rows.mergeSort conceptLe

/-- Concept envelope of GET /lemmas/id/concept (main.py lines 359-364). -/
def conceptJson (fid : Int) (k : String) (rows : List Row) : Json :=
  Json.obj
    [("focus_lemma_id", .num fid), ("kernel_word", .str k),
     ("total_lemmas", .num rows.length),
     ("languages", .arr ((groupRows rows).map bucketJson))]

/-- GET /lemmas/id/concept (main.py lemma_concept): resolve the focus lemma,
reject a missing lemma with 404 and a falsy kernel_word with 400, otherwise
group all rows sharing the kernel_word, ordered by language name then
original word. -/
def lemma_concept (db : List Row) (lemma_id : Int) : Except HErr Json :=
  match (db.filter (fun r => decide (r.lemma_id = lemma_id))).head? with
  | none => .error (HErr.mk 404 "Lemma not found")
  | some lemma_row =>
    if strPresent lemma_row.kernel_word then
      let k := lemma_row.kernel_word.getD ""
      let rows := conceptSort (db.filter (fun r => decide (r.kernel_word = some k)))
      .ok (conceptJson lemma_id k rows)
    else
      .error (HErr.mk 400 "This lemma has no kernel_word defined, cannot build concept.")

/-- GET /concepts/by_kernel (main.py concept_by_kernel): same grouping query
keyed directly by the supplied kernel_word, optional lang_prefix, 404 when
no row matches. -/
def concept_by_kernel (db : List Row) (kernel_word : String)
    (lp : Option String) : Except HErr Json :=
  let rows := conceptSort (db.filter (fun r =>
    decide (r.kernel_word = some kernel_word) &&
    optFilter lp (fun v => decide (r.lang_pfx = v))))
  match rows with
  | [] => .error (HErr.mk 404 "No lemmas found for this kernel_word")
  | _ =>
    .ok (Json.obj
      [("kernel_word", .str kernel_word), ("lang_prefix", .ostr lp),
       ("total_lemmas", .num rows.length),
       ("languages", .arr ((groupRows rows).map bucketJson))])

/-! ## GET /kernels (main.py list_kernels) -/

/-- First-seen deduplication: the order in which distinct values are first
encountered. -/
def firstSeen (l : List String) : List String :=
  l.foldl (fun acc a => if a ∈ acc then acc else acc ++ [a]) []

/-- Rows surviving the WHERE clause of GET /kernels: non-null kernel_word
plus the optional exact lang_prefix and word_type matches. -/
def kernelFilter (db : List Row) (lp wt : Option String) : List Row :=
  db.filter (fun r =>
    decide (r.kernel_word ≠ none) &&
    optFilter lp (fun v => decide (r.lang_pfx = v)) &&
    optFilter wt (fun v => decide (r.word_type = v)))

/-- Distinct kernel_word values of a row set. -/
def kernelsOf (rows : List Row) : List String :=
  firstSeen (rows.filterMap Row.kernel_word)

/-- Number of rows of a group, COUNT(*) per kernel_word. -/
def kernelCount (rows : List Row) (k : String) : Nat :=
  (rows.filter (fun r => decide (r.kernel_word = some k))).length

/-- GROUP BY kernel_word with COUNT(*). -/
def kernelGroups (rows : List Row) : List (String × Nat) :=
  (kernelsOf rows).map (fun k => (k, kernelCount rows k))

/-- ORDER BY n_lemmas DESC, kernel_word ASC. -/
def kernelLe (a b : String × Nat) : Bool :=
  decide (b.2 < a.2 ∨ (a.2 = b.2 ∧ a.1 ≤ b.1))

/-- GET /kernels: group the filtered rows by kernel_word, keep groups with
at least min_count rows, order by count descending then kernel_word
ascending.  The endpoint takes no pagination parameters and returns the
whole list. -/
def list_kernels (db : List Row) (lp wt : Option String) (min_count : Nat) :
    List (String × Nat) :=
  ((kernelGroups (kernelFilter db lp wt)).filter
    (fun g => decide (min_count ≤ g.2))).mergeSort kernelLe

/-! ## Helper lemmas -/

/-- The sequential builder equals the ordered concatenation of the per-input
contributions, fragments and parameters alike. -/
theorem buildLemmaPredicates_eq (lp se wo we kw df wt : Option String) :
    buildLemmaPredicates lp se wo we kw df wt =
      ((langClause lp).1 ++ (typeClause wt).1 ++ (searchClause se).1 ++ (origClause wo).1 ++
        (enClause we).1 ++ (kernelClause kw).1 ++ (defClause df).1,
       (langClause lp).2 ++ (typeClause wt).2 ++ (searchClause se).2 ++ (origClause wo).2 ++
        (enClause we).2 ++ (kernelClause kw).2 ++ (defClause df).2) := by
  unfold buildLemmaPredicates langClause typeClause searchClause origClause enClause
    kernelClause defClause
  by_cases h1 : strPresent lp <;> by_cases h2 : strPresent wt <;>
    by_cases h3 : strPresent se <;> by_cases h4 : strPresent wo <;>
    by_cases h5 : strPresent we <;> by_cases h6 : strPresent kw <;>
    by_cases h7 : strPresent df <;>
    simp [h1, h2, h3, h4, h5, h6, h7]

/-- Mapping empty optional strings to absent ones. -/
def emptyToNone : Option String → Option String
  | some s => if s = "" then none else some s
  | none => none

theorem strPresent_emptyToNone (x : Option String) :
    strPresent (emptyToNone x) = strPresent x := by
  cases x with
  | none => rfl
  | some s => by_cases h : s = "" <;> simp [emptyToNone, strPresent, h]

theorem getD_emptyToNone (x : Option String) :
    (emptyToNone x).getD "" = x.getD "" := by
  cases x with
  | none => rfl
  | some s => by_cases h : s = "" <;> simp [emptyToNone, h]

/-- Sortable columns of GET /lemmas. -/
def allowCols : List String := ["lemma_id", "word_original", "word_en", "frequency"]

theorem sortColumn_not_mem (s : String) (h : s ∉ allowCols) :
    sortColumn s = "lemma_id" := by
  simp only [allowCols, List.mem_cons, List.not_mem_nil, or_false, not_or] at h
  obtain ⟨h1, h2, h3, h4⟩ := h
  have e1 : (s == "lemma_id") = false := beq_eq_false_iff_ne.mpr h1
  have e2 : (s == "word_original") = false := beq_eq_false_iff_ne.mpr h2
  have e3 : (s == "word_en") = false := beq_eq_false_iff_ne.mpr h3
  have e4 : (s == "frequency") = false := beq_eq_false_iff_ne.mpr h4
  simp [sortColumn, sort_map, List.lookup, e1, e2, e3, e4]

theorem sortColumn_mem_aux (s : String) (h : s ∈ allowCols) : sortColumn s = s := by
  simp only [allowCols, List.mem_cons, List.not_mem_nil, or_false] at h
  rcases h with h | h | h | h <;> subst h <;> rfl

theorem sortColumn_mem (s : String) : sortColumn s ∈ allowCols := by
  by_cases h : s ∈ allowCols
  · rw [sortColumn_mem_aux s h]; exact h
  · rw [sortColumn_not_mem s h]; simp [allowCols]

/-! ## Claims about the predicate builder and sort resolver -/

/-- C5: in the GET /lemmas predicate builder the general search input
contributes a single disjunctive fragment over word_original, word_en and
definition with the same wildcard-wrapped value bound three times; present
inputs contribute fragments and bound values in one fixed append order; and
with no inputs present the fragment list is empty and no WHERE clause is
emitted. -/
theorem search_lemmas_predicate_builder :
    ∀ lp se wo we kw df wt : Option String,
    buildLemmaPredicates lp se wo we kw df wt =
      ((langClause lp).1 ++ (typeClause wt).1 ++ (searchClause se).1 ++ (origClause wo).1 ++
        (enClause we).1 ++ (kernelClause kw).1 ++ (defClause df).1,
       (langClause lp).2 ++ (typeClause wt).2 ++ (searchClause se).2 ++ (origClause wo).2 ++
        (enClause we).2 ++ (kernelClause kw).2 ++ (defClause df).2) ∧
    (strPresent se = true →
      searchClause se =
        (["(word_original ILIKE %s OR word_en ILIKE %s OR definition ILIKE %s)"],
         [.str (wild (se.getD "")), .str (wild (se.getD "")), .str (wild (se.getD ""))])) ∧
    buildLemmaPredicates none none none none none none none = ([], []) ∧
    whereSql [] = "" ∧
    (∀ c cs, whereSql (c :: cs) = "WHERE " ++ String.intercalate " AND " (c :: cs)) := by
  intro lp se wo we kw df wt
  refine ⟨buildLemmaPredicates_eq lp se wo we kw df wt, ?_, rfl, rfl, fun c cs => rfl⟩
  intro hse
  simp [searchClause, hse]

theorem rowMatches_emptyToNone (lp se wo we kw df wt : Option String) :
    rowMatches (emptyToNone lp) (emptyToNone se) (emptyToNone wo) (emptyToNone we)
        (emptyToNone kw) (emptyToNone df) (emptyToNone wt) =
      rowMatches lp se wo we kw df wt := by
  funext r
  simp only [rowMatches, optFilter, strPresent_emptyToNone, getD_emptyToNone]

/-- C9: for every optional string filter of GET /lemmas, supplying the empty
string is treated exactly like omitting the parameter: the built predicates
and the full endpoint response are unchanged when every empty-string input
is replaced by an absent one; in particular each single filter slot behaves
the same at the empty string as at absence. -/
theorem search_lemmas_empty_filter_skipped :
    ∀ (db : List Row) (lp se wo we kw df wt : Option String) (sb sd : String) (p n : Nat),
    buildLemmaPredicates (emptyToNone lp) (emptyToNone se) (emptyToNone wo) (emptyToNone we)
        (emptyToNone kw) (emptyToNone df) (emptyToNone wt) =
      buildLemmaPredicates lp se wo we kw df wt ∧
    search_lemmas db (emptyToNone lp) (emptyToNone se) (emptyToNone wo) (emptyToNone we)
        (emptyToNone kw) (emptyToNone df) (emptyToNone wt) sb sd p n =
      search_lemmas db lp se wo we kw df wt sb sd p n ∧
    emptyToNone (some "") = none := by
  intro db lp se wo we kw df wt sb sd p n
  refine ⟨?_, ?_, rfl⟩
  · simp only [buildLemmaPredicates, strPresent_emptyToNone, getD_emptyToNone]
  · simp only [search_lemmas, rowMatches_emptyToNone]

/-- C4: the ORDER BY column of GET /lemmas is the allow-list image of
sort_by (each of the four allowed keys mapped to itself, anything else
falling back to lemma_id), the column used always lies in the allow-list so
the raw client string never enters the query, an out-of-list key produces
the same query text and the same response as the default key, and the
direction is DESC exactly when sort_dir lower-cases to desc. -/
theorem search_lemmas_sort_resolver :
    (∀ s, s ∈ allowCols → sortColumn s = s) ∧
    (∀ s, s ∉ allowCols → sortColumn s = "lemma_id") ∧
    (∀ s, sortColumn s ∈ allowCols) ∧
    (∀ d, sortDirection d = "DESC" ↔ d.toLower = "desc") ∧
    (∀ d, sortDirection d = "DESC" ∨ sortDirection d = "ASC") ∧
    (∀ lp se wo we kw df wt s d (p n : Nat), s ∉ allowCols →
      searchLemmasPlan lp se wo we kw df wt s d p n =
        searchLemmasPlan lp se wo we kw df wt "lemma_id" d p n) ∧
    (∀ db lp se wo we kw df wt s d (p n : Nat), s ∉ allowCols →
      search_lemmas db lp se wo we kw df wt s d p n =
        search_lemmas db lp se wo we kw df wt "lemma_id" d p n) := by
  refine ⟨sortColumn_mem_aux, sortColumn_not_mem, sortColumn_mem, ?_, ?_, ?_, ?_⟩
  · intro d
    constructor
    · intro h
      by_contra hne
      simp [sortDirection, hne] at h
    · intro h; simp [sortDirection, h]
  · intro d
    by_cases h : d.toLower = "desc" <;> simp [sortDirection, h]
  · intro lp se wo we kw df wt s d p n hs
    unfold searchLemmasPlan
    rw [sortColumn_not_mem s hs]
    rfl
  · intro db lp se wo we kw df wt s d p n hs
    unfold search_lemmas
    rw [sortColumn_not_mem s hs]
    rfl

/-- C6: for every combination of filter inputs, the count query and the list
query of GET /lemmas and of GET /lemmas/by_kernel are built from the same
predicate fragments (one shared WHERE clause) and the same parameter values
in the same order, the list query parameters being exactly the count query
parameters with the LIMIT and OFFSET values appended. -/
theorem count_and_list_queries_agree :
    ∀ (lp se wo we kw df wt : Option String) (sb sd : String) (page n : Nat) (kpath : String),
    (searchLemmasPlan lp se wo we kw df wt sb sd page n).list_params =
      (searchLemmasPlan lp se wo we kw df wt sb sd page n).count_params ++
        [.int (n : Int), .int (((page - 1) * n : Nat) : Int)] ∧
    (searchLemmasPlan lp se wo we kw df wt sb sd page n).count_params =
      (buildLemmaPredicates lp se wo we kw df wt).2 ∧
    (searchLemmasPlan lp se wo we kw df wt sb sd page n).count_sql =
      "SELECT COUNT(*) AS total FROM lemma_with_example " ++
        whereSql (buildLemmaPredicates lp se wo we kw df wt).1 ++ ";" ∧
    (searchLemmasPlan lp se wo we kw df wt sb sd page n).list_sql =
      selectCols ++ whereSql (buildLemmaPredicates lp se wo we kw df wt).1 ++
        " ORDER BY " ++ sortColumn sb ++ " " ++ sortDirection sd ++ " LIMIT %s OFFSET %s;" ∧
    (byKernelPlan kpath lp page n).list_params =
      (byKernelPlan kpath lp page n).count_params ++
        [.int (n : Int), .int (((page - 1) * n : Nat) : Int)] ∧
    (byKernelPlan kpath lp page n).count_params = (byKernelPredicates kpath lp).2 ∧
    (byKernelPlan kpath lp page n).count_sql =
      "SELECT COUNT(*) AS total FROM lemma_with_example WHERE " ++
        String.intercalate " AND " (byKernelPredicates kpath lp).1 ++ ";" ∧
    (byKernelPlan kpath lp page n).list_sql =
      selectCols ++ "WHERE " ++ String.intercalate " AND " (byKernelPredicates kpath lp).1 ++
        " ORDER BY lemma_id LIMIT %s OFFSET %s;" := by
  intro lp se wo we kw df wt sb sd page n kpath
  refine ⟨rfl, rfl, rfl, rfl, rfl, rfl, rfl, ?_⟩
  simp only [byKernelPlan, String.append_assoc]

/-! ## Claim C1: pagination envelopes -/

/-- Single example row used by concrete counterexamples. -/
def exRow : Row :=
  Row.mk 1 "SERB" "sr" "Serbian" "rec" "word" (some "WORD") "noun" (some 3) none
    (some "a unit of language")

/-- C1 counterexample: the GET /lemmas envelope of a one-row store has no
total_pages field at all (its keys are page, page_size, total, results), so
the envelope cannot carry total_pages = ceiling(total / page_size). -/
theorem total_pages_field_missing :
    (search_lemmas [exRow] none none none none none none none "lemma_id" "asc" 1 20).lookup
        "total_pages" = none ∧
    (search_lemmas [exRow] none none none none none none none "lemma_id" "asc" 1 20).keys =
      ["page", "page_size", "total", "results"] ∧
    (search_lemmas [exRow] none none none none none none none "lemma_id" "asc" 1 20).lookup
        "total" = some (Json.num 1) := by
  refine ⟨rfl, rfl, ?_⟩
  simp [search_lemmas, Json.lookup, List.lookup]
  rfl

/-- C1 amended: every paged list endpoint returns an envelope whose keys are
exactly the endpoint echo fields plus page, page_size, total and results, in
that order; no endpoint computes a total_pages field, and total is the
unlimited match count. -/
theorem paged_envelope_fields :
    ∀ (db : List Row) (lp se wo we kw df wt : Option String) (sb sd kpath q lang : String)
      (p n : Nat),
    (search_lemmas db lp se wo we kw df wt sb sd p n).keys =
      ["page", "page_size", "total", "results"] ∧
    (lemmas_by_kernel db kpath lp p n).keys =
      ["kernel_word", "lang_prefix", "page", "page_size", "total", "results"] ∧
    (search_definitions db q lp p n).keys =
      ["query", "lang_prefix", "page", "page_size", "total", "results"] ∧
    (lemmas_by_language db lang wt p n).keys =
      ["lang_prefix", "word_type", "page", "page_size", "total", "results"] ∧
    "total_pages" ∉ (search_lemmas db lp se wo we kw df wt sb sd p n).keys ∧
    "total_pages" ∉ (lemmas_by_kernel db kpath lp p n).keys ∧
    "total_pages" ∉ (search_definitions db q lp p n).keys ∧
    "total_pages" ∉ (lemmas_by_language db lang wt p n).keys ∧
    (search_lemmas db lp se wo we kw df wt sb sd p n).lookup "total" =
      some (Json.num ((db.filter (rowMatches lp se wo we kw df wt)).length : Int)) := by
  intro db lp se wo we kw df wt sb sd kpath q lang p n
  refine ⟨rfl, rfl, rfl, rfl, ?_, ?_, ?_, ?_, ?_⟩
  · show "total_pages" ∉ ["page", "page_size", "total", "results"]
    decide
  · show "total_pages" ∉ ["kernel_word", "lang_prefix", "page", "page_size", "total", "results"]
    decide
  · show "total_pages" ∉ ["query", "lang_prefix", "page", "page_size", "total", "results"]
    decide
  · show "total_pages" ∉ ["lang_prefix", "word_type", "page", "page_size", "total", "results"]
    decide
  · simp [search_lemmas, Json.lookup, List.lookup]

/-! ## Claims C2 and C10: concept-by-lemma branches -/

theorem conceptLe_trans (a b c : Row) (hab : conceptLe a b = true)
    (hbc : conceptLe b c = true) : conceptLe a c = true := by
  simp only [conceptLe, decide_eq_true_eq] at *
  rcases hab with h1 | ⟨e1, l1⟩ <;> rcases hbc with h2 | ⟨e2, l2⟩
  · exact Or.inl (lt_trans h1 h2)
  · exact Or.inl (e2 ▸ h1)
  · exact Or.inl (e1 ▸ h2)
  · exact Or.inr ⟨e1.trans e2, le_trans l1 l2⟩

theorem conceptLe_total (a b : Row) : (conceptLe a b || conceptLe b a) = true := by
  simp only [conceptLe, Bool.or_eq_true, decide_eq_true_eq]
  rcases lt_trichotomy a.lang_name b.lang_name with h | h | h
  · exact Or.inl (Or.inl h)
  · rcases le_total a.word_original b.word_original with hw | hw
    · exact Or.inl (Or.inr ⟨h, hw⟩)
    · exact Or.inr (Or.inr ⟨h.symm, hw⟩)
  · exact Or.inr (Or.inl h)

theorem conceptSort_perm (rows : List Row) : (conceptSort rows).Perm rows :=
  List.mergeSort_perm rows conceptLe

theorem conceptSort_sorted (rows : List Row) :
    (conceptSort rows).Pairwise (fun a b =>
      a.lang_name < b.lang_name ∨
        (a.lang_name = b.lang_name ∧ a.word_original ≤ b.word_original)) := by
  have h := List.sorted_mergeSort conceptLe_trans conceptLe_total rows
  exact h.imp (fun hab => by simpa [conceptLe, decide_eq_true_eq] using hab)

/-- C2: GET /lemmas/id/concept resolves the focus lemma first and returns a
404 error when no row has the id; when the lemma exists but its kernel_word
is falsy it returns the distinct 400 Invalid Request State error, never a
concept object; otherwise it returns the concept built from exactly the rows
whose kernel_word equals the focus kernel_word, sorted by language name then
original word. -/
theorem lemma_concept_branches :
    ∀ (db : List Row) (i : Int),
    ((db.filter (fun r => decide (r.lemma_id = i))).head? = none →
      lemma_concept db i = .error (HErr.mk 404 "Lemma not found")) ∧
    (∀ r, (db.filter (fun x => decide (x.lemma_id = i))).head? = some r →
      strPresent r.kernel_word = false →
      lemma_concept db i =
        .error (HErr.mk 400 "This lemma has no kernel_word defined, cannot build concept.")) ∧
    (∀ r k, (db.filter (fun x => decide (x.lemma_id = i))).head? = some r →
      r.kernel_word = some k → k ≠ "" →
      lemma_concept db i =
        .ok (conceptJson i k
          (conceptSort (db.filter (fun x => decide (x.kernel_word = some k)))))) ∧
    HErr.mk 400 "This lemma has no kernel_word defined, cannot build concept." ≠
      HErr.mk 404 "Lemma not found" ∧
    (∀ rows : List Row, (conceptSort rows).Perm rows) ∧
    (∀ rows : List Row, (conceptSort rows).Pairwise (fun a b =>
      a.lang_name < b.lang_name ∨
        (a.lang_name = b.lang_name ∧ a.word_original ≤ b.word_original))) := by
  intro db i
  refine ⟨?_, ?_, ?_, by decide, conceptSort_perm, conceptSort_sorted⟩
  · intro h
    simp [lemma_concept, h]
  · intro r hr hk
    simp [lemma_concept, hr, hk]
  · intro r k hr hk hne
    simp [lemma_concept, hr, hk, strPresent, hne]

/-- C10: a focus lemma whose kernel_word is the empty string is rejected by
GET /lemmas/id/concept with exactly the same 400 Invalid Request State error
as a lemma whose kernel_word is null: the 400 branch fires for every falsy
kernel_word value. -/
theorem lemma_concept_empty_kernel_rejected :
    ∀ (db : List Row) (i : Int),
    (∀ r, (db.filter (fun x => decide (x.lemma_id = i))).head? = some r →
      r.kernel_word = some "" →
      lemma_concept db i =
        .error (HErr.mk 400 "This lemma has no kernel_word defined, cannot build concept.")) ∧
    (∀ r, (db.filter (fun x => decide (x.lemma_id = i))).head? = some r →
      r.kernel_word = none →
      lemma_concept db i =
        .error (HErr.mk 400 "This lemma has no kernel_word defined, cannot build concept.")) := by
  intro db i
  constructor
  · intro r hr hk
    simp [lemma_concept, hr, hk, strPresent]
  · intro r hr hk
    simp [lemma_concept, hr, hk, strPresent]

/-! ## Claim C3: the grouping aggregator -/

/-- Language prefix of a bucket. -/
def bpfx (b : Bucket) : String := b.language.pfx

theorem mem_foldl_firstSeen (l : List String) (acc : List String) (x : String) :
    (x ∈ l.foldl (fun acc a => if a ∈ acc then acc else acc ++ [a]) acc) ↔
      x ∈ acc ∨ x ∈ l := by
  induction l generalizing acc with
  | nil => simp
  | cons a t ih =>
    simp only [List.foldl_cons]
    rw [ih]
    by_cases h : a ∈ acc
    · simp only [if_pos h, List.mem_cons]
      constructor
      · rintro (hx | hx)
        · exact Or.inl hx
        · exact Or.inr (Or.inr hx)
      · rintro (hx | hx | hx)
        · exact Or.inl hx
        · exact Or.inl (hx ▸ h)
        · exact Or.inr hx
    · simp only [if_neg h, List.mem_append, List.mem_singleton, List.mem_cons]
      tauto

theorem firstSeen_mem (l : List String) (x : String) :
    x ∈ firstSeen l ↔ x ∈ l := by
  simpa [firstSeen] using mem_foldl_firstSeen l [] x

theorem nodup_foldl_firstSeen (l : List String) (acc : List String)
    (h : acc.Nodup) :
    (l.foldl (fun acc a => if a ∈ acc then acc else acc ++ [a]) acc).Nodup := by
  induction l generalizing acc with
  | nil => simpa using h
  | cons a t ih =>
    simp only [List.foldl_cons]
    by_cases ha : a ∈ acc
    · rw [if_pos ha]; exact ih acc h
    · rw [if_neg ha]
      refine ih (acc ++ [a]) ?_
      simp [List.nodup_append, h, ha]

theorem firstSeen_nodup (l : List String) : (firstSeen l).Nodup :=
  nodup_foldl_firstSeen l [] List.nodup_nil

theorem firstSeen_snoc (l : List String) (a : String) :
    firstSeen (l ++ [a]) =
      if a ∈ firstSeen l then firstSeen l else firstSeen l ++ [a] := by
  simp [firstSeen, List.foldl_append]

/-- One step of the grouping loop preserves the bucket characterization:
bucket order is the first-seen order of prefixes of the rows handled so far,
and each bucket carries exactly the summaries of its rows in order. -/
theorem insertRow_inv (h : List Row) (acc : List Bucket) (r : Row)
    (h1 : acc.map bpfx = firstSeen (h.map Row.lang_pfx))
    (h2 : ∀ b ∈ acc,
      b.lemmas = (h.filter (fun x => decide (x.lang_pfx = bpfx b))).map lemmaSummary) :
    (insertRow acc r).map bpfx = firstSeen ((h ++ [r]).map Row.lang_pfx) ∧
    ∀ b ∈ insertRow acc r,
      b.lemmas = ((h ++ [r]).filter (fun x => decide (x.lang_pfx = bpfx b))).map
        lemmaSummary := by
  have hsnoc : firstSeen ((h ++ [r]).map Row.lang_pfx) =
      if r.lang_pfx ∈ firstSeen (h.map Row.lang_pfx) then firstSeen (h.map Row.lang_pfx)
      else firstSeen (h.map Row.lang_pfx) ++ [r.lang_pfx] := by
    rw [List.map_append]
    simpa using firstSeen_snoc (h.map Row.lang_pfx) r.lang_pfx
  by_cases hc : acc.any (fun b => decide (b.language.pfx = r.lang_pfx))
  · have hmem : r.lang_pfx ∈ acc.map bpfx := by
      rcases List.any_eq_true.mp hc with ⟨b, hb, hbe⟩
      exact List.mem_map.mpr ⟨b, hb, of_decide_eq_true hbe⟩
    constructor
    · rw [hsnoc, ← h1, if_pos hmem]
      simp only [insertRow, if_pos hc, List.map_map]
      refine List.map_congr_left ?_
      intro b hb
      by_cases hbp : b.language.pfx = r.lang_pfx <;> simp [bpfx, hbp]
    · intro b' hb'
      simp only [insertRow, if_pos hc] at hb'
      rcases List.mem_map.mp hb' with ⟨b, hb, rfl⟩
      have hb2 := h2 b hb
      simp only [bpfx] at hb2
      by_cases hbp : b.language.pfx = r.lang_pfx
      · simp only [if_pos hbp]
        have hfr : List.filter (fun x => decide (x.lang_pfx = b.language.pfx)) [r] = [r] := by
          simp [hbp.symm]
        rw [List.filter_append]
        show b.lemmas ++ [lemmaSummary r] = _
        rw [show bpfx (Bucket.mk b.language (b.lemmas ++ [lemmaSummary r])) = b.language.pfx
          from rfl]
        rw [hfr, List.map_append, ← hb2]
        rfl
      · simp only [if_neg hbp]
        have hne : ¬ r.lang_pfx = b.language.pfx := fun he => hbp he.symm
        have hfr : List.filter (fun x => decide (x.lang_pfx = b.language.pfx)) [r] = [] := by
          simp [hne]
        show b.lemmas = _
        rw [show bpfx b = b.language.pfx from rfl]
        rw [List.filter_append, hfr, List.append_nil]
        exact hb2
  · have hall : ∀ b ∈ acc, ¬ b.language.pfx = r.lang_pfx := by
      intro b hb hbe
      have hany : acc.any (fun b => decide (b.language.pfx = r.lang_pfx)) = true :=
        List.any_eq_true.mpr ⟨b, hb, by simp [hbe]⟩
      exact hc hany
    have hnot : r.lang_pfx ∉ acc.map bpfx := by
      intro hmem
      rcases List.mem_map.mp hmem with ⟨b, hb, hbe⟩
      exact hall b hb hbe
    have hnoth : r.lang_pfx ∉ h.map Row.lang_pfx := by
      intro hmem
      exact hnot (h1 ▸ (firstSeen_mem (h.map Row.lang_pfx) r.lang_pfx).mpr hmem)
    constructor
    · rw [hsnoc, ← h1, if_neg hnot]
      simp [insertRow, hc, bpfx]
    · intro b' hb'
      simp only [insertRow, if_neg hc, List.mem_append, List.mem_singleton] at hb'
      rcases hb' with hb' | rfl
      · have hbp : ¬ bpfx b' = r.lang_pfx := hall b' hb'
        have hne : ¬ r.lang_pfx = bpfx b' := fun he => hbp he.symm
        have hfr : List.filter (fun x => decide (x.lang_pfx = bpfx b')) [r] = [] := by
          simp [hne]
        rw [List.filter_append, hfr, List.append_nil]
        exact h2 b' hb'
      · have hfh : List.filter
            (fun x => decide (x.lang_pfx =
              bpfx (Bucket.mk (LangInfo.mk r.lang_pfx r.lang_iso r.lang_name)
                [lemmaSummary r]))) h = [] := by
          rw [List.filter_eq_nil_iff]
          intro x hx
          simp only [bpfx, decide_eq_true_eq]
          intro he
          exact hnoth (List.mem_map.mpr ⟨x, hx, he⟩)
        rw [List.filter_append, hfh, List.nil_append]
        simp [bpfx]

/-- Characterization of the full grouping loop, by induction along the
remaining rows with the processed history made explicit. -/
theorem groupAux_inv : ∀ (rows h : List Row) (acc : List Bucket),
    acc.map bpfx = firstSeen (h.map Row.lang_pfx) →
    (∀ b ∈ acc,
      b.lemmas = (h.filter (fun x => decide (x.lang_pfx = bpfx b))).map lemmaSummary) →
    ((rows.foldl insertRow acc).map bpfx = firstSeen ((h ++ rows).map Row.lang_pfx) ∧
     ∀ b ∈ rows.foldl insertRow acc,
       b.lemmas = ((h ++ rows).filter (fun x => decide (x.lang_pfx = bpfx b))).map
         lemmaSummary) := by
  intro rows
  induction rows with
  | nil =>
    intro h acc h1 h2
    simpa using ⟨h1, h2⟩
  | cons r rs ih =>
    intro h acc h1 h2
    have step := insertRow_inv h acc r h1 h2
    have main := ih (h ++ [r]) (insertRow acc r) step.1 step.2
    simpa [List.append_assoc] using main

/-- Example rows whose language prefixes appear in the order A, A, B, A. -/
def exA1 : Row := Row.mk 1 "A" "a" "Alpha" "w1" "e1" (some "K") "noun" none none none

def exA2 : Row := Row.mk 2 "A" "a" "Alpha" "w2" "e2" (some "K") "noun" none none none

def exB3 : Row := Row.mk 3 "B" "b" "Beta" "w3" "e3" (some "K") "noun" none none none

def exA4 : Row := Row.mk 4 "A" "a" "Alpha" "w4" "e4" (some "K") "noun" none none none

def exAABA : List Row := [exA1, exA2, exB3, exA4]

/-- C3: the grouping step makes one bucket per distinct language prefix in
first-seen order, each bucket lists exactly the summaries of its rows in the
supplied order with duplicates kept, the total_lemmas field of the concept
envelope is the input row count, and languages supplied in order A, A, B, A
give bucket order A, B with three entries in bucket A. -/
theorem grouping_aggregator_spec :
    ∀ rows : List Row,
    ((groupRows rows).map bpfx = firstSeen (rows.map Row.lang_pfx)) ∧
    ((groupRows rows).map bpfx).Nodup ∧
    (∀ p, p ∈ (groupRows rows).map bpfx ↔ p ∈ rows.map Row.lang_pfx) ∧
    (∀ b ∈ groupRows rows,
      b.lemmas = (rows.filter (fun x => decide (x.lang_pfx = bpfx b))).map lemmaSummary) ∧
    (∀ (fid : Int) (k : String) (rs : List Row),
      (conceptJson fid k rs).lookup "total_lemmas" = some (Json.num (rs.length : Int))) ∧
    ((groupRows exAABA).map (fun b => (bpfx b, b.lemmas.length)) = [("A", 3), ("B", 1)]) ∧
    ((groupRows exAABA).map Bucket.lemmas =
      [[lemmaSummary exA1, lemmaSummary exA2, lemmaSummary exA4], [lemmaSummary exB3]]) := by
  intro rows
  have main := groupAux_inv rows [] [] rfl (by intro b hb; cases hb)
  have h1 : (groupRows rows).map bpfx = firstSeen (rows.map Row.lang_pfx) := by
    simpa [groupRows] using main.1
  have h2 : ∀ b ∈ groupRows rows,
      b.lemmas = (rows.filter (fun x => decide (x.lang_pfx = bpfx b))).map lemmaSummary := by
    simpa [groupRows] using main.2
  refine ⟨h1, ?_, ?_, h2, fun fid k rs => rfl, rfl, rfl⟩
  · rw [h1]; exact firstSeen_nodup _
  · intro p
    rw [h1]
    exact firstSeen_mem _ p

/-! ## Claims C7 and C8: GET /kernels -/

theorem kernelLe_trans (a b c : String × Nat) (hab : kernelLe a b = true)
    (hbc : kernelLe b c = true) : kernelLe a c = true := by
  simp only [kernelLe, decide_eq_true_eq] at *
  rcases hab with h1 | ⟨e1, l1⟩ <;> rcases hbc with h2 | ⟨e2, l2⟩
  · exact Or.inl (lt_trans h2 h1)
  · exact Or.inl (e2 ▸ h1)
  · exact Or.inl (e1 ▸ h2)
  · exact Or.inr ⟨e1.trans e2, le_trans l1 l2⟩

theorem kernelLe_total (a b : String × Nat) : (kernelLe a b || kernelLe b a) = true := by
  simp only [kernelLe, Bool.or_eq_true, decide_eq_true_eq]
  rcases lt_trichotomy a.2 b.2 with h | h | h
  · exact Or.inr (Or.inl h)
  · rcases le_total a.1 b.1 with hw | hw
    · exact Or.inl (Or.inr ⟨h, hw⟩)
    · exact Or.inr (Or.inr ⟨h.symm, hw⟩)
  · exact Or.inl (Or.inl h)

theorem kernelGroups_mem (rows : List Row) (k : String) (c : Nat) :
    (k, c) ∈ kernelGroups rows ↔ k ∈ kernelsOf rows ∧ c = kernelCount rows k := by
  simp only [kernelGroups, List.mem_map, Prod.mk.injEq]
  constructor
  · rintro ⟨x, hx, rfl, rfl⟩
    exact ⟨hx, rfl⟩
  · rintro ⟨hk, rfl⟩
    exact ⟨k, hk, rfl, rfl⟩

/-- C8: GET /kernels with min_count m returns exactly the kernel_word groups
of the filtered rows whose row count is at least m (each group key non-null,
paired with its exact count, listed once), ordered by count descending with
ties broken by kernel_word ascending. -/
theorem list_kernels_min_count_spec :
    ∀ (db : List Row) (lp wt : Option String) (m : Nat),
    (∀ k c, (k, c) ∈ list_kernels db lp wt m ↔
      (k ∈ kernelsOf (kernelFilter db lp wt) ∧
        c = kernelCount (kernelFilter db lp wt) k ∧ m ≤ c)) ∧
    (list_kernels db lp wt m).Pairwise
      (fun a b => b.2 < a.2 ∨ (a.2 = b.2 ∧ a.1 ≤ b.1)) ∧
    (∀ k, k ∈ kernelsOf (kernelFilter db lp wt) →
      ∃ r ∈ kernelFilter db lp wt, r.kernel_word = some k) ∧
    ((list_kernels db lp wt m).map Prod.fst).Nodup := by
  intro db lp wt m
  refine ⟨?_, ?_, ?_, ?_⟩
  · intro k c
    rw [list_kernels, List.mem_mergeSort, List.mem_filter, kernelGroups_mem]
    simp only [decide_eq_true_eq]
    tauto
  · have h := List.sorted_mergeSort kernelLe_trans kernelLe_total
      ((kernelGroups (kernelFilter db lp wt)).filter (fun g => decide (m ≤ g.2)))
    exact h.imp (fun hab => by simpa [kernelLe, decide_eq_true_eq] using hab)
  · intro k hk
    rw [kernelsOf, firstSeen_mem] at hk
    exact List.mem_filterMap.mp hk
  · have e : (kernelGroups (kernelFilter db lp wt)).map Prod.fst =
        kernelsOf (kernelFilter db lp wt) := by
      rw [kernelGroups, List.map_map]
      rw [show (Prod.fst ∘ fun k => (k, kernelCount (kernelFilter db lp wt) k)) = id from rfl]
      exact List.map_id _
    have hnd : ((kernelGroups (kernelFilter db lp wt)).map Prod.fst).Nodup := by
      rw [e]; exact firstSeen_nodup _
    have hsub : (((kernelGroups (kernelFilter db lp wt)).filter
        (fun g => decide (m ≤ g.2))).map Prod.fst).Sublist
        ((kernelGroups (kernelFilter db lp wt)).map Prod.fst) :=
      (List.filter_sublist _).map Prod.fst
    have hfil := hnd.sublist hsub
    have hperm : ((list_kernels db lp wt m).map Prod.fst).Perm
        (((kernelGroups (kernelFilter db lp wt)).filter
          (fun g => decide (m ≤ g.2))).map Prod.fst) :=
      (List.mergeSort_perm _ kernelLe).map Prod.fst
    exact hperm.nodup_iff.mpr hfil

/-- C7 amended: GET /kernels takes no page or page_size parameter; for every
store and filter choice it returns the complete, unpaged list of qualifying
kernel groups: the output length equals the number of qualifying groups and
a group appears in the output exactly when its count reaches min_count. -/
theorem list_kernels_unpaged :
    ∀ (db : List Row) (lp wt : Option String) (m : Nat),
    (list_kernels db lp wt m).length =
      ((kernelGroups (kernelFilter db lp wt)).filter (fun g => decide (m ≤ g.2))).length ∧
    (∀ g, g ∈ kernelGroups (kernelFilter db lp wt) → m ≤ g.2 →
      g ∈ list_kernels db lp wt m) ∧
    (∀ g, g ∈ list_kernels db lp wt m →
      g ∈ kernelGroups (kernelFilter db lp wt) ∧ m ≤ g.2) := by
  intro db lp wt m
  refine ⟨List.length_mergeSort _, ?_, ?_⟩
  · intro g hg hm
    rw [list_kernels, List.mem_mergeSort, List.mem_filter]
    exact ⟨hg, by simpa using hm⟩
  · intro g hg
    rw [list_kernels, List.mem_mergeSort, List.mem_filter] at hg
    exact ⟨hg.1, by simpa using hg.2⟩

/-- Store with 51 rows carrying 51 distinct kernel_word values. -/
def ex51 : List Row :=
  (List.range 51).map (fun i : Nat =>
    Row.mk (i : Int) "L" "l" "Lang" "w" "e" (some (String.mk [Char.ofNat (65 + i)])) "noun"
      none none none)

set_option maxRecDepth 8000 in
/-- C7 counterexample: on a store with 51 qualifying kernel groups, GET
/kernels at its defaults returns all 51 groups in one response, more than
the 50 rows a first page of the claimed default page_size 50 could hold, so
the endpoint does not return a paged slice. -/
theorem list_kernels_not_paged_cex :
    (list_kernels ex51 none none 1).length = 51 ∧ ¬ (51 : Nat) ≤ 50 := by
  constructor
  · rw [list_kernels, List.length_mergeSort]
    decide
  · decide
